import Mathlib

/-!
# Shallow embedding of USACE/goquery (fluent_insert.go, dialect_duckdb.go)

Go maps over string keys are embedded as association lists (first binding
wins, assignment replaces in place); a possibly-nil Go map is an
`Option StmtCache`; Go `error` results are `Except`/`Option`; a Go panic is
`Option.none`; Go `int` is `Int`.
-/

/-- Association-list embedding of the Go map type `Statements map[string]string`
from fluent_insert.go. -/
def Statements : Type := List (String × String)

/-- Alias used where a structure field is itself named `Statements`. -/
abbrev StmtCache : Type := Statements

instance : DecidableEq Statements := by
  unfold Statements
  infer_instance

/-- Go map read `s[key]` (comma-ok form): the value bound to `key`, if any.
Reading misses yields the zero value / `ok = false`, embedded as `none`. -/
def Statements.lookup : Statements → String → Option String
  | [], _ => none
  | (k, v) :: rest, key => if k = key then some v else Statements.lookup rest key

/-- Go map assignment `s[key] = v`: replaces the binding of `key` if present,
otherwise adds one. -/
def Statements.assign : Statements → String → String → Statements
  | [], key, v => [(key, v)]
  | (k, w) :: rest, key, v =>
      if k = key then (key, v) :: rest else (k, w) :: Statements.assign rest key v

/-- Key set of the cache (with multiplicity; `lookup` takes the first hit). -/
def Statements.keys (s : Statements) : List String :=
  s.map Prod.fst

/-- `Statements.Get` from fluent_insert.go: comma-ok lookup, returning
`errors.New("Invalid statement")` on a miss. -/
def Statements.Get (s : Statements) (key : String) : Except String String :=
  match s.lookup key with
  | some val => Except.ok val
  | none => Except.error "Invalid statement"

/-- `Statements.GetOrPanic` from fluent_insert.go: comma-ok lookup, panicking
on a miss; the panic is embedded as `none`. -/
def Statements.GetOrPanic (s : Statements) (key : String) : Option String :=
  match s.lookup key with
  | some val => some val
  | none => none

/-- `const selectkey = "select"` from fluent_insert.go. -/
def selectkey : String := "select"

/-- `TableDataSet` from fluent_insert.go; `F` stands for the dynamic type held
by the `any`-typed `TableFields`, and `Statements == nil` is `none`. -/
structure TableDataSet (F : Type) where
  Name : String
  Schema : String
  Statements : Option StmtCache
  TableFields : F
  deriving DecidableEq

/-- Go map assignment through a possibly-nil map variable: assigning to a nil
map panics, embedded as `none`. -/
def goMapAssign : Option StmtCache → String → String → Option StmtCache
  | none, _, _ => none
  | some m, key, v => some (m.assign key v)

/-- Go map read through a possibly-nil map variable: reading a nil map yields
a miss. -/
def cacheLookup : Option StmtCache → String → Option String
  | none, _ => none
  | some m, key => m.lookup key

/-- `Statements.Get` invoked on the (possibly nil) cache of a dataset. -/
def cacheGet (c : Option StmtCache) (key : String) : Except String String :=
  (c.getD []).Get key

/-- `TableDataSet.Entity` from fluent_insert.go: `Schema.Name` when a schema
is present, else the bare name. -/
def TableDataSet.Entity (t : TableDataSet F) : String :=
  if t.Schema ≠ "" then t.Schema ++ "." ++ t.Name else t.Name

/-- `TableDataSet.Commands` from fluent_insert.go: returns the cache map. -/
def TableDataSet.Commands (t : TableDataSet F) : Option StmtCache :=
  t.Statements

/-- `TableDataSet.PutCommand` from fluent_insert.go: allocates the cache when
nil, then executes `t.Statements[selectkey] = stmt` (note: the source writes
under `selectkey`, not under `key`). The result is `none` exactly when the
map assignment would panic. -/
def TableDataSet.PutCommand (t : TableDataSet F) (key stmt : String) :
    Option (TableDataSet F) :=
  let t1 := match t.Statements with
    | none => { t with Statements := some ([] : StmtCache) }
    | some _ => t
  match goMapAssign t1.Statements selectkey stmt with
  | none => none
  | some m => some { t1 with Statements := some m }

/-- Decimal numeral of a natural number, as written by `fmt.Sprintf("%d", ·)`:
most-significant digit first, `"0"` for zero. -/
def natDecimalString (n : Nat) : String :=
  if n = 0 then "0"
  else String.mk (((Nat.digits 10 n).reverse).map fun d => Char.ofNat (48 + d))

/-- Decimal numeral of a Go `int`, as written by `fmt.Sprintf("%d", ·)`. -/
def intDecimalString (i : Int) : String :=
  if i < 0 then "-" ++ natDecimalString (-i).toNat else natDecimalString i.toNat

/-- `DbDialect`, modelled from its use in dialect_duckdb.go: a table-existence
query template and a placeholder function `Bind(field, i)`. -/
structure DbDialect where
  TableExistsStmt : String
  Bind : String → Int → String

/-- `duckdbDialect` from dialect_duckdb.go: `Bind` returns
`fmt.Sprintf("$%d", i+1)` and ignores the field argument. -/
def duckdbDialect : DbDialect :=
  { TableExistsStmt :=
      "SELECT EXISTS (SELECT 1 FROM information_schema.tables WHERE table_name = $1)"
    Bind := fun _field i => "$" ++ intDecimalString (i + 1) }

/-- `const defaultBatchSize = 100` from fluent_insert.go. -/
def defaultBatchSize : Nat := 100

/-- `InsertInput`, modelled from its construction in `FluentInsert.Execute`;
`D` is the dataset type, `R` the dynamic type of the `any`-typed records. -/
structure InsertInput (D R : Type) where
  Dataset : D
  Records : R
  Batch : Bool
  BatchSize : Int
  PanicOnErr : Bool

/-- `DataStore`, modelled from its use in `FluentInsert.Execute`: the only
operation exercised there is `InsertRecs(tx, input) error`; a nil error is
`none`, `T` is the transaction-handle type, `E` the error payload type. -/
structure DataStore (D R E T : Type) where
  InsertRecs : Option T → InsertInput D R → Option E

/-- `FluentInsert` from fluent_insert.go. -/
structure FluentInsert (D R E T : Type) where
  store : DataStore D R E T
  ds : D
  batch : Bool
  batchSize : Int
  tx : Option T
  records : R
  panicOnErr : Bool

/-- `FluentInsert.Tx` from fluent_insert.go. -/
def FluentInsert.Tx (i : FluentInsert D R E T) (tx : Option T) :
    FluentInsert D R E T :=
  { i with tx := tx }

/-- `FluentInsert.Batch` from fluent_insert.go. -/
def FluentInsert.Batch (i : FluentInsert D R E T) (batch : Bool) :
    FluentInsert D R E T :=
  { i with batch := batch }

/-- `FluentInsert.BatchSize` from fluent_insert.go. -/
def FluentInsert.BatchSize (i : FluentInsert D R E T) (bs : Int) :
    FluentInsert D R E T :=
  { i with batchSize := bs }

/-- `FluentInsert.Records` from fluent_insert.go. -/
def FluentInsert.Records (i : FluentInsert D R E T) (recs : R) :
    FluentInsert D R E T :=
  { i with records := recs }

/-- `FluentInsert.PanicOnErr` from fluent_insert.go. -/
def FluentInsert.PanicOnErr (i : FluentInsert D R E T) (p : Bool) :
    FluentInsert D R E T :=
  { i with panicOnErr := p }

/-- `FluentInsert.Execute` from fluent_insert.go: packs the accumulated state
into an `InsertInput` and hands it to the store. -/
def FluentInsert.Execute (i : FluentInsert D R E T) : Option E :=
  let ii : InsertInput D R :=
    { Dataset := i.ds
      Records := i.records
      Batch := i.batch
      BatchSize := i.batchSize
      PanicOnErr := i.panicOnErr }
  i.store.InsertRecs i.tx ii

/-- Modelled from the spec: the effective chunk size used by the store's
`InsertRecs` (whose implementation is not under src/) — "records are grouped
into chunks of at most `BatchSize` (default 100)"; an unset builder leaves
the Go zero value `0`, which falls back to `defaultBatchSize`. -/
def effectiveBatchSize (bs : Int) : Nat :=
  if bs ≤ 0 then defaultBatchSize else bs.toNat

/-- Fuel-indexed chunking worker; the fuel bounds the recursion depth and is
instantiated with the list length, which suffices because every step consumes
at least `max 1 n ≥ 1` elements. -/
def chunkRecordsGo (n : Nat) : Nat → List α → List (List α)
  | _, [] => []
  | 0, _ :: _ => []
  | fuel + 1, x :: xs =>
      (x :: xs).take (max 1 n) :: chunkRecordsGo n fuel ((x :: xs).drop (max 1 n))

/-- Modelled from the spec: grouping of records into chunks of at most `n`
(at least one record per chunk) for batch submission. -/
def chunkRecords (n : Nat) (l : List α) : List (List α) :=
  chunkRecordsGo n l.length l

/-- Modelled from the spec: the batching step of the store's `InsertRecs`
(not under src/) — when `Batch` is enabled the records are grouped into
chunks of at most the effective batch size, otherwise each record is
submitted on its own. -/
def insertBatches (ii : InsertInput D (List R)) : List (List R) :=
  if ii.Batch then chunkRecords (effectiveBatchSize ii.BatchSize) ii.Records
  else ii.Records.map fun r => [r]

/-! ## Helper lemmas -/

/-- A lookup misses exactly when the key is not among the cache's keys. -/
theorem Statements.lookup_eq_none_iff (s : Statements) (key : String) :
    s.lookup key = none ↔ key ∉ s.keys := by
  induction s with
  | nil => simp [Statements.lookup, Statements.keys]
  | cons hd tl ih =>
      obtain ⟨k, v⟩ := hd
      by_cases hk : k = key
      · subst hk
        simp [Statements.lookup, Statements.keys]
      · simp [Statements.lookup, Statements.keys, hk, ih, Ne.symm hk]

/-- Assignment leaves every other key's binding unchanged. -/
theorem Statements.lookup_assign_ne (s : Statements) (k k' v : String)
    (h : k' ≠ k) : (s.assign k v).lookup k' = s.lookup k' := by
  induction s with
  | nil => simp [Statements.assign, Statements.lookup, Ne.symm h]
  | cons hd tl ih =>
      obtain ⟨k0, w⟩ := hd
      by_cases hk0 : k0 = k
      · subst hk0
        simp [Statements.assign, Statements.lookup, Ne.symm h]
      · simp [Statements.assign, Statements.lookup, hk0]
        by_cases hk0' : k0 = k'
        · simp [hk0']
        · simp [hk0', ih]

/-! ## Claim theorems -/

/-- C2: `Statements.Get` fails (with the fixed error text) exactly when the
key is absent from the cache and returns the cached SQL text otherwise, and
`Statements.GetOrPanic` panics (embedded as `none`) exactly when the key is
absent and otherwise returns the same text that `Get` returns; both are pure
lookups, so the cache is unchanged. -/
theorem Statements.Get_GetOrPanic_spec (s : Statements) (key : String) :
    (s.Get key = Except.error "Invalid statement" ↔ key ∉ s.keys) ∧
    (∀ v, s.Get key = Except.ok v ↔ s.lookup key = some v) ∧
    (s.GetOrPanic key = none ↔ key ∉ s.keys) ∧
    (∀ v, s.GetOrPanic key = some v ↔ s.Get key = Except.ok v) := by
  have hmiss := Statements.lookup_eq_none_iff s key
  cases h : s.lookup key with
  | none =>
      rw [h] at hmiss
      simp only [Statements.Get, Statements.GetOrPanic, h]
      refine ⟨by simpa using hmiss, ?_, by simpa using hmiss, ?_⟩ <;> simp
  | some v0 =>
      rw [h] at hmiss
      simp only [Statements.Get, Statements.GetOrPanic, h]
      refine ⟨?_, ?_, ?_, ?_⟩
      · constructor
        · intro hc; cases hc
        · intro hk; exact absurd (hmiss.mpr hk) (by simp)
      · intro v; constructor
        · intro hc; cases hc; rfl
        · intro hv; cases hv; rfl
      · constructor
        · intro hc; cases hc
        · intro hk; exact absurd (hmiss.mpr hk) (by simp)
      · intro v; constructor
        · intro hc; cases hc; rfl
        · intro hc; cases hc; rfl

/-- Witness for C2 at a concrete cache: a present key is returned by both
lookups, an absent key yields the error result. -/
theorem Statements.Get_GetOrPanic_spec_witness :
    Statements.Get [("a", "select 1")] "a" = Except.ok "select 1" ∧
    Statements.GetOrPanic [("a", "select 1")] "a" = some "select 1" ∧
    Statements.Get [("a", "select 1")] "b" = Except.error "Invalid statement" := by
  have h1 := (Statements.Get_GetOrPanic_spec [("a", "select 1")] "a").2.1 "select 1"
  have hget : Statements.Get [("a", "select 1")] "a" = Except.ok "select 1" :=
    h1.mpr (by decide)
  have h2 := (Statements.Get_GetOrPanic_spec [("a", "select 1")] "a").2.2.2 "select 1"
  have h3 := (Statements.Get_GetOrPanic_spec [("a", "select 1")] "b").1
  exact ⟨hget, h2.mpr hget, h3.mpr (by decide)⟩

/-- C3: `Entity` is `Schema ++ "." ++ Name` when the schema is non-empty and
the bare `Name` when the schema is empty. -/
theorem TableDataSet.Entity_spec (t : TableDataSet F) :
    (t.Schema ≠ "" → t.Entity = t.Schema ++ "." ++ t.Name) ∧
    (t.Schema = "" → t.Entity = t.Name) := by
  constructor <;> intro h <;> simp [TableDataSet.Entity, h]

/-- Witness for C3 at concrete datasets with and without a schema. -/
theorem TableDataSet.Entity_spec_witness :
    (⟨"tbl", "sch", none, 0⟩ : TableDataSet Nat).Entity = "sch" ++ "." ++ "tbl" ∧
    (⟨"tbl", "", none, 0⟩ : TableDataSet Nat).Entity = "tbl" :=
  ⟨(TableDataSet.Entity_spec ⟨"tbl", "sch", none, 0⟩).1 (by decide),
   (TableDataSet.Entity_spec ⟨"tbl", "", none, 0⟩).2 rfl⟩

/-- C5: the DuckDB `Bind` function ignores its field argument — its output is
a function of the index alone. -/
theorem duckdbDialect.Bind_pure (f1 f2 : String) (i : Int) :
    duckdbDialect.Bind f1 i = duckdbDialect.Bind f2 i := rfl

/-- C7: any two fluent configuration calls that set distinct fields commute:
applied in either order they produce identical builder state (the Go methods
mutate the shared receiver and return it, embedded as state passing). -/
theorem FluentInsert.config_commute (i : FluentInsert D R E T) (t : Option T)
    (b : Bool) (bs : Int) (r : R) (p : Bool) :
    ((i.Tx t).Batch b = (i.Batch b).Tx t) ∧
    ((i.Tx t).BatchSize bs = (i.BatchSize bs).Tx t) ∧
    ((i.Tx t).Records r = (i.Records r).Tx t) ∧
    ((i.Tx t).PanicOnErr p = (i.PanicOnErr p).Tx t) ∧
    ((i.Batch b).BatchSize bs = (i.BatchSize bs).Batch b) ∧
    ((i.Batch b).Records r = (i.Records r).Batch b) ∧
    ((i.Batch b).PanicOnErr p = (i.PanicOnErr p).Batch b) ∧
    ((i.BatchSize bs).Records r = (i.Records r).BatchSize bs) ∧
    ((i.BatchSize bs).PanicOnErr p = (i.PanicOnErr p).BatchSize bs) ∧
    ((i.Records r).PanicOnErr p = (i.PanicOnErr p).Records r) :=
  ⟨rfl, rfl, rfl, rfl, rfl, rfl, rfl, rfl, rfl, rfl⟩

/-- C8: `PutCommand` never fails: on a dataset whose cache is nil it
allocates the map before writing, so the embedded run always succeeds. -/
theorem TableDataSet.PutCommand_total (t : TableDataSet F) (key stmt : String) :
    (t.PutCommand key stmt).isSome = true := by
  cases h : t.Statements <;> simp [TableDataSet.PutCommand, goMapAssign, h]

/-- C10: `Execute` returns exactly the store's `InsertRecs` applied to the
builder's transaction handle and an `InsertInput` carrying precisely the
configured dataset, records, batch flag, batch size, and panic-on-error
flag. -/
theorem FluentInsert.Execute_spec (i : FluentInsert D R E T) :
    i.Execute =
      i.store.InsertRecs i.tx
        ⟨i.ds, i.records, i.batch, i.batchSize, i.panicOnErr⟩ := rfl

/-- C1 counterexample run: `PutCommand` ignores its key argument, so a
statement put under the reserved key `"insert"` is not retrievable under
`"insert"` — it lands under `"select"` instead. -/
theorem PutCommand_insert_key_lost :
    ((⟨"fishing_spots", "", none, 0⟩ : TableDataSet Nat).PutCommand "insert"
        "insert into fishing_spots (location) values ($1)").map
        (fun t => cacheGet t.Statements "insert")
      = some (Except.error "Invalid statement") ∧
    ((⟨"fishing_spots", "", none, 0⟩ : TableDataSet Nat).PutCommand "insert"
        "insert into fishing_spots (location) values ($1)").map
        (fun t => cacheGet t.Statements "select")
      = some (Except.ok "insert into fishing_spots (location) values ($1)") := by
  exact ⟨rfl, rfl⟩

/-- C9: `PutCommand` touches the cache only at the key `"select"`: every
binding at another key is unchanged (a nil cache reads the same misses before
and after), and the `Name`, `Schema` and `TableFields` fields are kept. -/
theorem TableDataSet.PutCommand_frame (t : TableDataSet F) (key stmt : String)
    (t' : TableDataSet F) (h : t.PutCommand key stmt = some t') :
    (∀ k, k ≠ selectkey →
        cacheLookup t'.Statements k = cacheLookup t.Statements k) ∧
    t'.Name = t.Name ∧ t'.Schema = t.Schema ∧ t'.TableFields = t.TableFields := by
  cases hs : t.Statements with
  | none =>
      simp only [TableDataSet.PutCommand, hs, goMapAssign] at h
      cases h
      refine ⟨?_, rfl, rfl, rfl⟩
      intro k hk
      simp [cacheLookup, Statements.assign, Statements.lookup, Ne.symm hk]
  | some m =>
      simp only [TableDataSet.PutCommand, hs, goMapAssign] at h
      cases h
      refine ⟨?_, rfl, rfl, rfl⟩
      intro k hk
      simp only [cacheLookup]
      exact Statements.lookup_assign_ne m selectkey k stmt hk

/-- Witness for C9: a concrete put leaves a pre-existing foreign binding and
the descriptive fields intact. -/
theorem TableDataSet.PutCommand_frame_witness :
    cacheLookup (some [("other", "keep"), ("select", "s1")]) "other"
        = cacheLookup (some [("other", "keep")]) "other" ∧
    ("tbl" : String) = "tbl" ∧ ("sch" : String) = "sch" ∧ (7 : Nat) = 7 := by
  have h := TableDataSet.PutCommand_frame
    (⟨"tbl", "sch", some [("other", "keep")], 7⟩ : TableDataSet Nat) "insert" "s1"
    (⟨"tbl", "sch", some [("other", "keep"), ("select", "s1")], 7⟩ : TableDataSet Nat)
    (by decide)
  exact ⟨h.1 "other" (by decide), h.2.1, h.2.2.1, h.2.2.2⟩

/-- The ASCII value of the character printed for a decimal digit. -/
theorem digitCharValue : ∀ d < 10, (Char.ofNat (48 + d)).toNat = 48 + d := by decide

/-- Reading the ASCII codes back recovers the digit list, so the digit-to-char
map is injective on genuine digit lists. -/
theorem decimalDigits_cancel (l : List Nat) (hl : ∀ x ∈ l, x < 10) :
    ((l.map fun d => Char.ofNat (48 + d)).map fun c => c.toNat - 48) = l := by
  induction l with
  | nil => rfl
  | cons x xs ih =>
      simp only [List.map_cons, List.cons.injEq]
      constructor
      · rw [digitCharValue x (hl x (by simp))]
        omega
      · exact ih fun y hy => hl y (by simp [hy])

/-- Distinct positive numbers print as distinct decimal numerals. -/
theorem natDecimalString_inj (a b : Nat) (ha : a ≠ 0) (hb : b ≠ 0)
    (h : natDecimalString a = natDecimalString b) : a = b := by
  unfold natDecimalString at h
  rw [if_neg ha, if_neg hb] at h
  have hd : (((Nat.digits 10 a).reverse).map fun d => Char.ofNat (48 + d))
      = (((Nat.digits 10 b).reverse).map fun d => Char.ofNat (48 + d)) :=
    congrArg String.data h
  have ca := decimalDigits_cancel ((Nat.digits 10 a).reverse)
    (fun x hx => Nat.digits_lt_base (by norm_num) (List.mem_reverse.mp hx))
  have cb := decimalDigits_cancel ((Nat.digits 10 b).reverse)
    (fun x hx => Nat.digits_lt_base (by norm_num) (List.mem_reverse.mp hx))
  have hrev : (Nat.digits 10 a).reverse = (Nat.digits 10 b).reverse := by
    rw [← ca, ← cb, hd]
  have hdig : Nat.digits 10 a = Nat.digits 10 b := by
    have := congrArg List.reverse hrev
    simpa using this
  exact Nat.digits_inj_iff.mp hdig

/-- Cancelling the fixed placeholder sigil on the left of a string equation. -/
theorem string_dollar_cancel (x y : String) (h : "$" ++ x = "$" ++ y) : x = y := by
  cases x with
  | mk dx =>
      cases y with
      | mk dy =>
          have hd : '$' :: dx = '$' :: dy := congrArg String.data h
          simp only [List.cons.injEq, true_and] at hd
          rw [hd]

/-- C4: for a non-negative index `i` the DuckDB `Bind` deterministically
returns the placeholder `"$"` followed by the decimal numeral of `i + 1`, and
distinct indices yield distinct placeholder strings. -/
theorem duckdbDialect.Bind_placeholder (f g : String) (i j : Int)
    (hi : 0 ≤ i) (hj : 0 ≤ j) :
    duckdbDialect.Bind f i = "$" ++ natDecimalString (i + 1).toNat ∧
    (i ≠ j → duckdbDialect.Bind f i ≠ duckdbDialect.Bind g j) := by
  constructor
  · show "$" ++ intDecimalString (i + 1) = _
    rw [intDecimalString, if_neg (by omega)]
  · intro hne heq
    have heq2 : "$" ++ intDecimalString (i + 1) = "$" ++ intDecimalString (j + 1) :=
      heq
    rw [intDecimalString, if_neg (by omega)] at heq2
    rw [intDecimalString, if_neg (by omega)] at heq2
    have hx := string_dollar_cancel _ _ heq2
    have hnat := natDecimalString_inj _ _ (by omega) (by omega) hx
    exact hne (by omega)

/-- Witness for C4 at the indices 0 and 1 and two different field names. -/
theorem duckdbDialect.Bind_placeholder_witness :
    duckdbDialect.Bind "name" 0 = "$" ++ natDecimalString ((0 : Int) + 1).toNat ∧
    duckdbDialect.Bind "name" 0 ≠ duckdbDialect.Bind "other" 1 :=
  ⟨(duckdbDialect.Bind_placeholder "name" "other" 0 1 (by decide) (by decide)).1,
   (duckdbDialect.Bind_placeholder "name" "other" 0 1 (by decide) (by decide)).2
     (by decide)⟩

/-- Every chunk produced by the chunking worker has at most `max 1 n`
elements, for any fuel. -/
theorem chunkRecordsGo_length_le (n : Nat) :
    ∀ (fuel : Nat) (l : List α), ∀ c ∈ chunkRecordsGo n fuel l,
      c.length ≤ max 1 n := by
  intro fuel
  induction fuel with
  | zero =>
      intro l c hc
      cases l <;> simp [chunkRecordsGo] at hc
  | succ f ih =>
      intro l c hc
      cases l with
      | nil => simp [chunkRecordsGo] at hc
      | cons x xs =>
          simp only [chunkRecordsGo, List.mem_cons] at hc
          rcases hc with rfl | hc
          · exact List.length_take_le _ _
          · exact ih _ c hc

/-- With enough fuel (the list length suffices), flattening the chunks
recovers the original record list: chunking is a grouping, it neither drops
nor duplicates records. -/
theorem chunkRecordsGo_flatten (n : Nat) :
    ∀ (fuel : Nat) (l : List α), l.length ≤ fuel →
      (chunkRecordsGo n fuel l).flatten = l := by
  intro fuel
  induction fuel with
  | zero =>
      intro l hl
      cases l with
      | nil => rfl
      | cons x xs => simp at hl
  | succ f ih =>
      intro l hl
      cases l with
      | nil => rfl
      | cons x xs =>
          simp only [chunkRecordsGo, List.flatten_cons]
          rw [ih _ ?hlen, List.take_append_drop]
          case hlen =>
            have h1 : 1 ≤ max 1 n := Nat.le_max_left 1 n
            simp only [List.length_drop, List.length_cons] at *
            omega

/-- C6: in batch mode the records are grouped into chunks of at most the
default batch size 100 when the builder's batch size was never set (Go zero
value 0), and of at most `bs` when `BatchSize` set it to a positive `bs`;
flattening the chunks gives back exactly the configured records. The grouping
itself is modelled from the spec, since the store's `InsertRecs` body is not
under src/. -/
theorem FluentInsert.batch_chunking (i : FluentInsert D (List R) E T)
    (hb : i.batch = true) :
    (i.batchSize = 0 →
      ∀ c ∈ insertBatches ⟨i.ds, i.records, i.batch, i.batchSize, i.panicOnErr⟩,
        c.length ≤ defaultBatchSize) ∧
    (0 < i.batchSize →
      ∀ c ∈ insertBatches ⟨i.ds, i.records, i.batch, i.batchSize, i.panicOnErr⟩,
        c.length ≤ i.batchSize.toNat) ∧
    (insertBatches ⟨i.ds, i.records, i.batch, i.batchSize, i.panicOnErr⟩).flatten
      = i.records := by
  simp only [insertBatches, hb, if_true]
  refine ⟨?_, ?_, ?_⟩
  · intro h0 c hc
    rw [h0] at hc
    have heff : effectiveBatchSize 0 = defaultBatchSize := rfl
    rw [heff] at hc
    have := chunkRecordsGo_length_le defaultBatchSize _ _ c hc
    simpa [defaultBatchSize] using this
  · intro hpos c hc
    have heff : effectiveBatchSize i.batchSize = i.batchSize.toNat := by
      rw [effectiveBatchSize, if_neg (by omega)]
    rw [heff] at hc
    have hbound := chunkRecordsGo_length_le i.batchSize.toNat _ _ c hc
    have hmax : max 1 i.batchSize.toNat = i.batchSize.toNat :=
      Nat.max_eq_right (by omega)
    rw [hmax] at hbound
    exact hbound
  · exact chunkRecordsGo_flatten _ _ _ (Nat.le_refl _)

/-- Witness for C6: a concrete batch-enabled builder with unset batch size
keeps all three records in one chunk of length at most 100; with batch size 2
the first chunk has the two first records; flattening recovers the records. -/
theorem FluentInsert.batch_chunking_witness :
    ([10, 20, 30] : List Nat).length ≤ defaultBatchSize ∧
    ([10, 20] : List Nat).length ≤ (2 : Int).toNat ∧
    (insertBatches
        (⟨0, [10, 20, 30], true, 0, false⟩ : InsertInput Nat (List Nat))).flatten
      = [10, 20, 30] := by
  have h1 := FluentInsert.batch_chunking
    (⟨⟨fun _ _ => none⟩, 0, true, 0, none, [10, 20, 30], false⟩ :
      FluentInsert Nat (List Nat) Unit Unit) rfl
  have h2 := FluentInsert.batch_chunking
    (⟨⟨fun _ _ => none⟩, 0, true, 2, none, [10, 20, 30], false⟩ :
      FluentInsert Nat (List Nat) Unit Unit) rfl
  refine ⟨h1.1 rfl [10, 20, 30] (by decide), h2.2.1 (by decide) [10, 20] (by decide),
    h1.2.2⟩
